import Mathlib

/-!
Shallow embedding of `src/test-e2e/utils/create-test-suites.js`.

Strings are modelled as `List Char` (JS strings of the shapes this module
handles).  Environment-variable lookups are `Option (List Char)` (`none` is
JS `undefined`).  Node-specific library behaviour (`url.parse`/`url.format`,
`String.prototype.trim`, `String.prototype.split` with the capturing regex
`/:(.+)/`) is embedded for the inputs this module feeds it, as documented on
each definition.
-/

namespace CreateTestSuites

/-- JS truthiness of a `process.env` lookup: `undefined` and `''` are falsy,
every non-empty string is truthy. -/
def truthy : Option (List Char) → Bool
  | none => false
  | some s => !s.isEmpty

/-- Whitespace removed by JS `String.prototype.trim` (the ASCII cases). -/
def isJsSpace (c : Char) : Bool := c == ' ' || c == '\t' || c == '\n' || c == '\r'

/-- JS `String.prototype.trim`. -/
def trimL (s : List Char) : List Char :=
  ((s.dropWhile isJsSpace).reverse.dropWhile isJsSpace).reverse

/-- Characters matched by the JS regex metacharacter `.` (no `s` flag):
everything except the four line terminators. -/
def jsDot (c : Char) : Bool :=
  !(c == '\n' || c == '\r' || c == ' ' || c == ' ')

/-- `auth.split(/:(.+)/)`, keeping elements 0 and 1 as the destructuring
`[user, key]` does (line 56 of the source).  The regex matches at the first
colon that is followed by at least one character matched by `.`; element 0 is
the text before that colon, element 1 the (greedy) capture.  If the regex
never matches, element 0 is the whole string and element 1 is `undefined`. -/
def splitAuthColon : List Char → List Char × Option (List Char)
  | [] => ([], none)
  | c :: rest =>
    if c = ':' ∧ rest ≠ [] ∧ jsDot (rest.headD ' ') then
      ([], some (rest.takeWhile jsDot))
    else
      let p := splitAuthColon rest
      (c :: p.1, p.2)

/-! ### Node legacy `url` model

`url.parse` / `url.format` embedded for `scheme://host[:port][path]` strings
(the browser-host URLs this module consumes).  A string without `://` parses
with no protocol and no hostname, matching Node's treatment of inputs such as
`localhost:5757` for the fields this module reads. -/

structure ParsedUrl where
  /-- Scheme text before `://` (Node stores it with a trailing colon; the
  separator is re-attached by `urlFormat`). -/
  protocol : Option (List Char)
  hostname : Option (List Char)
  port : Option (List Char)
  /-- `hostname:port` combined, preferred by `url.format` when present. -/
  host : Option (List Char)
  /-- Everything from the first `/`, `?` or `#` on (pathname, search, hash). -/
  path : List Char
deriving Repr, DecidableEq

/-- Split a URL string at the first occurrence of `://`. -/
def splitScheme : List Char → Option (List Char × List Char)
  | [] => none
  | c :: rest =>
    if c = ':' ∧ rest.take 2 = ['/', '/'] then
      some ([], rest.drop 2)
    else
      (splitScheme rest).map (fun p => (c :: p.1, p.2))

/-- Characters ending the host section of a URL. -/
def isHostDelim (c : Char) : Bool := c == '/' || c == '?' || c == '#'

/-- Split a `hostname:port` section at its last colon. -/
def splitHostPort (hp : List Char) : Option (List Char) × Option (List Char) :=
  let r := hp.reverse
  let pr := r.takeWhile (fun c => !(c == ':'))
  match r.dropWhile (fun c => !(c == ':')) with
  | [] => (some hp, none)
  | _ :: hn => (some hn.reverse, some pr.reverse)

/-- Node legacy `url.parse`, restricted as documented above. -/
def urlParse (s : List Char) : ParsedUrl :=
  match splitScheme s with
  | none => { protocol := none, hostname := none, port := none, host := none, path := s }
  | some (proto, rest) =>
    let hostpart := rest.takeWhile (fun c => !isHostDelim c)
    let path := rest.dropWhile (fun c => !isHostDelim c)
    let hnpo := splitHostPort hostpart
    { protocol := some proto, hostname := hnpo.1, port := hnpo.2,
      host := some hostpart, path := path }

/-- Node legacy `url.format`: `host` wins when present, otherwise the host
section is rebuilt from `hostname` and `port`. -/
def urlFormat (u : ParsedUrl) : List Char :=
  match u.protocol with
  | none => u.path
  | some proto =>
    let hostStr :=
      match u.host with
      | some h => h
      | none =>
        match u.hostname with
        | some hn => hn ++ (match u.port with | some p => ':' :: p | none => [])
        | none => []
    proto ++ (':' :: '/' :: '/' :: (hostStr ++ u.path))

/-! ### The configuration object and `initializeConfig` (source lines 17-90) -/

structure BrowserStackConfig where
  enabled : Bool
  user : List Char
  /-- `none` models JS `undefined` (possible after the destructuring on
  line 56); the initial value in the config literal is the empty string. -/
  key : Option (List Char)
  localEnabled : Bool
deriving Repr, DecidableEq

structure Config where
  browserHostUrl : List Char
  browserStack : BrowserStackConfig
deriving Repr, DecidableEq

/-- The three environment variables read by `initializeConfig`. -/
structure Env where
  e2eBrowserHost : Option (List Char)
  useBrowserStack : Option (List Char)
  browserStackAuth : Option (List Char)
deriving Repr, DecidableEq

/-- The two `console.warn` calls inside `initializeConfig`. -/
inductive Warn where
  | browserHostNotSet
  | nonStandardLocalPort (port : Option (List Char))
deriving Repr, DecidableEq

def PROD_HOST : List Char := "https://browser.blockstack.org".data

def AUTH_ERR : List Char :=
  "The BrowserStack auth must be set as environment variables. Use the format `BROWSERSTACK_AUTH=\"user:key\"`".data

def bsLocalHost : List Char := "bs-local.com".data

def expectedPort : List Char := "5757".data

def localHostnames : List (Option (List Char)) :=
  [some "localhost".data, some "127.0.0.1".data]

/-- `config.browserHostUrl = process.env[E2E_BROWSER_HOST] || PROD_HOST`
(line 37): `||` falls back on `undefined` and on the empty string. -/
def resolvedBrowserHost (env : Env) : List Char :=
  match env.e2eBrowserHost with
  | some s => if s = [] then PROD_HOST else s
  | none => PROD_HOST

/-- `process.env[USE_BROWSERSTACK] && process.env[USE_BROWSERSTACK] !== 'false'`
(line 47), as the truthiness of the assigned value. -/
def browserStackEnabled (env : Env) : Bool :=
  truthy env.useBrowserStack && !(env.useBrowserStack == some "false".data)

/-- The `[config.browserStack.user, config.browserStack.key]` assignment
(line 56); when BrowserStack is disabled both fields keep their initial
empty-string values from the config literal. -/
def credentials (env : Env) : List Char × Option (List Char) :=
  if browserStackEnabled env then
    splitAuthColon (trimL (env.browserStackAuth.getD []))
  else ([], some [])

/-- `config.browserStack.localEnabled` (line 67): only set when BrowserStack
is enabled, true when the parsed hostname is `localhost` or `127.0.0.1`. -/
def localTunnelEnabled (env : Env) : Bool :=
  browserStackEnabled env
    && localHostnames.contains (urlParse (resolvedBrowserHost env)).hostname

/-- The assignment `[parsedUrl.hostname, parsedUrl.host] = ['bs-local.com', undefined]`
(line 85). -/
def rewriteHost (u : ParsedUrl) : ParsedUrl :=
  { u with hostname := some bsLocalHost, host := none }

/-- The host rewrite (lines 83-87): when BrowserStack Local is enabled the
parsed URL's hostname is set to `bs-local.com`, `host` is cleared, and the
URL is re-serialised with `url.format`. -/
def finalBrowserHostUrl (env : Env) : List Char :=
  if localTunnelEnabled env then
    urlFormat (rewriteHost (urlParse (resolvedBrowserHost env)))
  else resolvedBrowserHost env

/-- The `console.warn` calls of `initializeConfig`, in source order: the
missing-host warning (line 39) and the non-standard-port warning (line 72,
emitted when local mode is on and `parsedUrl.port !== '5757'`). -/
def initWarnings (env : Env) : List Warn :=
  (if truthy env.e2eBrowserHost then [] else [Warn.browserHostNotSet])
    ++ (if localTunnelEnabled env
          && !((urlParse (resolvedBrowserHost env)).port == some expectedPort)
        then [Warn.nonStandardLocalPort (urlParse (resolvedBrowserHost env)).port]
        else [])

/-- The IIFE `initializeConfig` (lines 31-90).  The only `throw` is the
missing-credentials check (lines 49-54): BrowserStack enabled but
`BROWSERSTACK_AUTH` undefined or empty. -/
def initializeConfig (env : Env) : Except (List Char) (Config × List Warn) :=
  if browserStackEnabled env && !truthy env.browserStackAuth then
    Except.error AUTH_ERR
  else
    Except.ok
      ({ browserHostUrl := finalBrowserHostUrl env,
         browserStack :=
           { enabled := browserStackEnabled env,
             user := (credentials env).1,
             key := (credentials env).2,
             localEnabled := localTunnelEnabled env } },
       initWarnings env)

/-! ### Root-level tunnel hooks (source lines 93-124)

Callback outcomes of the external `browserstack-local` daemon are inputs
(`Except`-valued); the hook result is the promise returned to the test
runner: `Except.error` models a rejected promise (a failing hook). -/

inductive TunnelEvent where
  | start
  | stop
deriving Repr, DecidableEq

/-- The root `before` hook (lines 93-110): when `localEnabled` is set it
creates the `blockStackLocalInstance` and calls `start`; a start error is
logged and the promise is rejected.  Returns (hook result, whether the
instance was created, tunnel events emitted). -/
def beforeAllHook (cfg : Config) (startOutcome : Except (List Char) Unit) :
    Except (List Char) Unit × Bool × List TunnelEvent :=
  if cfg.browserStack.localEnabled then
    match startOutcome with
    | Except.ok _ => (Except.ok (), true, [TunnelEvent.start])
    | Except.error e => (Except.error e, true, [TunnelEvent.start])
  else (Except.ok (), false, [])

/-- The root `after` hook (lines 111-124): stops the instance only when it
exists and `isRunning()`; a stop error is logged and the promise is
rejected. -/
def afterAllHook (instanceCreated : Bool) (isRunning : Bool)
    (stopOutcome : Except (List Char) Unit) :
    Except (List Char) Unit × List TunnelEvent :=
  if instanceCreated && isRunning then
    match stopOutcome with
    | Except.ok _ => (Except.ok (), [TunnelEvent.stop])
    | Except.error e => (Except.error e, [TunnelEvent.stop])
  else (Except.ok (), [])

/-- Tunnel events of one whole process run.  Modelled from the spec: the
test runner executes the root-level `before` hook once before any suite,
then all suites, then the root-level `after` hook once; the suites
themselves never touch `blockStackLocalInstance` (no tunnel events). -/
def mochaRootTrace (cfg : Config) (startOutcome : Except (List Char) Unit)
    (isRunning : Bool) (stopOutcome : Except (List Char) Unit) :
    List TunnelEvent :=
  let b := beforeAllHook cfg startOutcome
  let a := afterAllHook b.2.1 isRunning stopOutcome
  b.2.2 ++ a.2

/-! ### Per-suite hooks (source lines 239-263) -/

/-- `this.currentTest.state` in the `afterEach` hook. -/
inductive TestState where
  | passed
  | failed
  | other
deriving Repr, DecidableEq

/-- JS `| 0`: ToInt32, truncation to a 32-bit signed integer. -/
def jsInt32 (n : Nat) : Int :=
  let m : Nat := n % 2 ^ 32
  if m < 2 ^ 31 then (m : Int) else (m : Int) - 2 ^ 32

/-- The screenshot file name `screenshot-${Date.now() / 1000 | 0}-${helpers.getRandomString(6)}.png`
(line 246); `nowMs` is `Date.now()` and `rand` the random-string result. -/
def screenshotName (nowMs : Nat) (rand : List Char) : List Char :=
  "screenshot-".data ++ (jsInt32 (nowMs / 1000)).repr.data ++ '-' :: rand ++ ".png".data

/-- `path.resolve(os.tmpdir(), 'selenium-errors')` (line 244), for an
absolute `tmpdir` without a trailing slash. -/
def seleniumErrorsDir (tmpdir : List Char) : List Char :=
  tmpdir ++ '/' :: "selenium-errors".data

/-- Modelled from the spec: `helpers.getRandomString(6)` (the `helpers`
module is not under src/) returns a random string of the requested length;
the entropy source is made explicit. -/
def getRandomString (n : Nat) (entropy : Nat) : List Char :=
  (List.range n).map (fun i => Char.ofNat ('a'.toNat + (entropy / 26 ^ i) % 26))

structure AfterEachResult where
  hookResult : Except (List Char) Unit
  errDirExistsAfter : Bool
  mkdirCalled : Bool
  savedScreenshot : Option (List Char)
  warnLogged : Bool
deriving Repr

/-- The `afterEach` hook (lines 239-253): on a failed test with a
screenshot-capable driver it ensures the error directory exists and saves a
screenshot; both the promise `.catch` and the outer `try`/`catch` swallow
failures, so the hook result is always fulfilled. -/
def afterEachHook (tmpdir : List Char) (state : TestState)
    (hasScreenshotFn : Bool) (errDirExists : Bool) (nowMs : Nat)
    (rand : List Char) (screenshotOutcome : Except (List Char) Unit) :
    AfterEachResult :=
  if state = TestState.failed ∧ hasScreenshotFn then
    let file := seleniumErrorsDir tmpdir ++ '/' :: screenshotName nowMs rand
    match screenshotOutcome with
    | Except.ok _ =>
      { hookResult := Except.ok (), errDirExistsAfter := true,
        mkdirCalled := !errDirExists, savedScreenshot := some file,
        warnLogged := false }
    | Except.error _ =>
      { hookResult := Except.ok (), errDirExistsAfter := true,
        mkdirCalled := !errDirExists, savedScreenshot := none,
        warnLogged := true }
  else
    { hookResult := Except.ok (), errDirExistsAfter := errDirExists,
      mkdirCalled := false, savedScreenshot := none, warnLogged := false }

/-- The per-suite `after` hook (lines 255-263): `driver.quit()` inside
`try`/`catch`, errors logged and swallowed.  Returns (hook result, whether
the warning was logged). -/
def afterSuiteHook (driverHasQuit : Bool)
    (quitOutcome : Except (List Char) Unit) :
    Except (List Char) Unit × Bool :=
  if driverHasQuit then
    match quitOutcome with
    | Except.ok _ => (Except.ok (), false)
    | Except.error _ => (Except.ok (), true)
  else (Except.ok (), false)

/-! ### Environment enumerators and `createTestSuites` (lines 139-267) -/

/-- Modelled from the spec: `./browserstack-environments` (not under src/)
is a list of capability objects, each carrying a human-readable `desc`;
its other fields do not affect suite structure. -/
structure CapSeed where
  desc : List Char
deriving Repr, DecidableEq

/-- A capability after `getBrowserstackEnvironments` merged in the
credentials (lines 148-152) and the optional `browserstack.local` flag
(lines 153-155). -/
structure Capability where
  desc : List Char
  user : List Char
  key : Option (List Char)
  bsLocal : Bool
deriving Repr, DecidableEq

/-- Which WebDriver builder a test environment's `createDriver` uses. -/
inductive DriverSpec where
  | browserStackHub (serverUrl : List Char) (cap : Capability)
  | localBrowser (browser : List Char)
deriving Repr, DecidableEq

structure TestEnvironment where
  description : List Char
  driverSpec : DriverSpec
deriving Repr, DecidableEq

def BROWSERSTACK_HUB_URL : List Char :=
  "http://hub-cloud.browserstack.com/wd/hub".data

/-- `getBrowserstackEnvironments` (lines 146-166), with the capability seeds
and the `config.browserStack.localEnabled` read passed explicitly. -/
def getBrowserstackEnvironments (caps : List CapSeed) (user : List Char)
    (key : Option (List Char)) (localEnabled : Bool) : List TestEnvironment :=
  caps.map (fun c =>
    { description := c.desc,
      driverSpec := DriverSpec.browserStackHub BROWSERSTACK_HUB_URL
        { desc := c.desc, user := user, key := key, bsLocal := localEnabled } })

/-- JS `new Set(list)` iteration order: first occurrences kept. -/
def setDedup (l : List (List Char)) : List (List Char) :=
  l.foldl (fun acc x => if x ∈ acc then acc else acc ++ [x]) []

/-- `getLocalSystemBrowserEnvironments` (lines 174-196), with
`process.platform` passed explicitly. -/
def getLocalSystemBrowserEnvironments (platform : List Char) :
    List TestEnvironment :=
  let browsers := ["firefox".data, "chrome".data]
    ++ (if platform = "darwin".data then ["safari".data]
        else if platform = "win32".data then ["edge".data] else [])
  (setDedup browsers).map (fun b =>
    { description := platform ++ ' ' :: b,
      driverSpec := DriverSpec.localBrowser b })

/-- The fields of the per-suite `testInputs` record fixed at suite creation
(the driver handle is populated later by the setup step). -/
structure TestInputs where
  envDesc : List Char
  browserHostUrl : List Char
deriving Repr, DecidableEq

/-- One `describe` block registered by `createTestSuites`: its title, the
test inputs, the driver acquired by the setup step, and the result of the
single `defineTests(testInputs)` invocation. -/
structure SuiteSpec (α : Type) where
  title : List Char
  testInputs : TestInputs
  driverSpec : DriverSpec
  definedTests : α

/-- `createTestSuites` (lines 215-267): choose the enumerator by
`config.browserStack.enabled`, and register one suite per enumerated
environment with title `` `${title} [${description}]` ``. -/
def createTestSuites {α : Type} (cfg : Config) (caps : List CapSeed)
    (platform : List Char) (title : List Char)
    (defineTests : TestInputs → α) : List (SuiteSpec α) :=
  let testEnvironments :=
    if cfg.browserStack.enabled then
      getBrowserstackEnvironments caps cfg.browserStack.user
        cfg.browserStack.key cfg.browserStack.localEnabled
    else getLocalSystemBrowserEnvironments platform
  testEnvironments.map (fun te =>
    let ti : TestInputs :=
      { envDesc := te.description, browserHostUrl := cfg.browserHostUrl }
    { title := title ++ ' ' :: '[' :: te.description ++ [']'],
      testInputs := ti,
      driverSpec := te.driverSpec,
      definedTests := defineTests ti })

/-! ### List helper lemmas -/

theorem mem_takeWhile_pred {p : Char → Bool} :
    ∀ {l : List Char} {c : Char}, c ∈ l.takeWhile p → p c = true := by
  intro l
  induction l with
  | nil => intro c h; simp [List.takeWhile] at h
  | cons a t ih =>
    intro c h
    rw [List.takeWhile_cons] at h
    by_cases hp : p a
    · simp [hp] at h
      rcases h with h | h
      · rwa [h]
      · exact ih h
    · simp [hp] at h

theorem mem_of_mem_takeWhile {p : Char → Bool} :
    ∀ {l : List Char} {c : Char}, c ∈ l.takeWhile p → c ∈ l := by
  intro l
  induction l with
  | nil => intro c h; simp [List.takeWhile] at h
  | cons a t ih =>
    intro c h
    rw [List.takeWhile_cons] at h
    by_cases hp : p a
    · simp [hp] at h
      rcases h with h | h
      · simp [h]
      · exact List.mem_cons_of_mem a (ih h)
    · simp [hp] at h

theorem takeWhile_eq_self_of_all {p : Char → Bool} :
    ∀ {l : List Char}, (∀ c ∈ l, p c = true) → l.takeWhile p = l := by
  intro l
  induction l with
  | nil => intro _; rfl
  | cons a t ih =>
    intro h
    rw [List.takeWhile_cons, h a (List.mem_cons_self a t)]
    simp [ih fun c hc => h c (List.mem_cons_of_mem a hc)]

theorem takeWhile_append_cons {p : Char → Bool} (c : Char) (t : List Char)
    (hc : p c = false) :
    ∀ (h : List Char), (∀ x ∈ h, p x = true) →
      (h ++ c :: t).takeWhile p = h ∧ (h ++ c :: t).dropWhile p = c :: t := by
  intro h
  induction h with
  | nil =>
    intro _
    constructor
    · rw [List.nil_append, List.takeWhile_cons, hc]; simp
    · rw [List.nil_append, List.dropWhile_cons, hc]; simp
  | cons a s ih =>
    intro hall
    have ha : p a = true := hall a (List.mem_cons_self a s)
    have ih' := ih fun x hx => hall x (List.mem_cons_of_mem a hx)
    constructor
    · rw [List.cons_append, List.takeWhile_cons, ha]
      simp [ih'.1]
    · rw [List.cons_append, List.dropWhile_cons, ha]
      simp [ih'.2]

theorem takeWhile_append_nil {p : Char → Bool} :
    ∀ (h : List Char), (∀ x ∈ h, p x = true) →
      (h ++ []).takeWhile p = h ∧ (h ++ []).dropWhile p = [] := by
  intro h hall
  rw [List.append_nil]
  refine ⟨takeWhile_eq_self_of_all hall, ?_⟩
  induction h with
  | nil => rfl
  | cons a s ih =>
    rw [List.dropWhile_cons, hall a (List.mem_cons_self a s)]
    simp [ih fun x hx => hall x (List.mem_cons_of_mem a hx)]

theorem dropWhile_head_false {p : Char → Bool} :
    ∀ {l : List Char} {c : Char} {t : List Char},
      l.dropWhile p = c :: t → p c = false := by
  intro l
  induction l with
  | nil => intro c t h; simp [List.dropWhile] at h
  | cons a s ih =>
    intro c t h
    rw [List.dropWhile_cons] at h
    by_cases hp : p a
    · simp [hp] at h; exact ih h
    · simp [hp] at h
      rw [← h.1]
      simpa using hp

/-! ### Lemmas about the `/:(.+)/` split -/

theorem splitAuthColon_key_ne_nil :
    ∀ {s k : List Char}, (splitAuthColon s).2 = some k → k ≠ [] := by
  intro s
  induction s with
  | nil => intro k h; simp [splitAuthColon] at h
  | cons c rest ih =>
    intro k h
    rw [splitAuthColon] at h
    split_ifs at h with hcond
    · rcases hcond with ⟨-, hne, hdot⟩
      simp only at h
      injection h with h
      cases hr : rest with
      | nil => exact absurd hr hne
      | cons a t =>
        rw [hr] at h hdot
        simp only [List.headD] at hdot
        rw [List.takeWhile_cons, hdot] at h
        rw [← h]
        simp
    · exact ih h

theorem splitAuthColon_no_colon :
    ∀ {s : List Char}, ':' ∉ s → splitAuthColon s = (s, none) := by
  intro s
  induction s with
  | nil => intro _; rfl
  | cons c rest ih =>
    intro h
    have hc : ¬c = ':' := fun hc => h (hc ▸ List.mem_cons_self c rest)
    have hr : ':' ∉ rest := fun hr => h (List.mem_cons_of_mem c hr)
    rw [splitAuthColon]
    rw [if_neg (fun hcond => hc hcond.1)]
    simp [ih hr]

theorem splitAuthColon_split {u k : List Char} (hu : ':' ∉ u) (hk : k ≠ [])
    (hdot : ∀ c ∈ k, jsDot c = true) :
    splitAuthColon (u ++ ':' :: k) = (u, some k) := by
  induction u with
  | nil =>
    cases k with
    | nil => exact absurd rfl hk
    | cons a t =>
      rw [List.nil_append, splitAuthColon]
      rw [if_pos ⟨rfl, by simp, by
        simpa using hdot a (List.mem_cons_self a t)⟩]
      simp [takeWhile_eq_self_of_all hdot]
  | cons c u' ih =>
    have hc : ¬c = ':' := fun hc => hu (hc ▸ List.mem_cons_self c u')
    have hu' : ':' ∉ u' := fun h => hu (List.mem_cons_of_mem c h)
    rw [List.cons_append, splitAuthColon]
    rw [if_neg (fun hcond => hc hcond.1)]
    simp [ih hu']

theorem splitAuthColon_trailing_colon {u : List Char} (hu : ':' ∉ u) :
    splitAuthColon (u ++ [':']) = (u ++ [':'], none) := by
  induction u with
  | nil =>
    rw [List.nil_append, splitAuthColon]
    rw [if_neg (fun hcond => by simpa using hcond.2.1)]
    simp [splitAuthColon]
  | cons c u' ih =>
    have hc : ¬c = ':' := fun hc => hu (hc ▸ List.mem_cons_self c u')
    have hu' : ':' ∉ u' := fun h => hu (List.mem_cons_of_mem c h)
    rw [List.cons_append, splitAuthColon]
    rw [if_neg (fun hcond => hc hcond.1)]
    simp [ih hu']

/-! ### Claims C1, C9, C10, C4 -/

/-- C1: when BrowserStack is enabled but `BROWSERSTACK_AUTH` is unset or
empty, `initializeConfig` throws the credentials error; when BrowserStack is
disabled, initialization succeeds regardless of the credential variable. -/
theorem c1_cloud_auth_fatal (env : Env) :
    (browserStackEnabled env = true → truthy env.browserStackAuth = false →
      initializeConfig env = Except.error AUTH_ERR)
    ∧ (browserStackEnabled env = false →
      ∃ r, initializeConfig env = Except.ok r) := by
  constructor
  · intro h1 h2
    rw [initializeConfig, if_pos (by rw [h1, h2]; rfl)]
  · intro h1
    rw [initializeConfig, if_neg (by rw [h1]; simp)]
    exact ⟨_, rfl⟩

theorem c1_cloud_auth_fatal_witness :
    initializeConfig ⟨none, some "1".data, none⟩ = Except.error AUTH_ERR
    ∧ ∃ r, initializeConfig ⟨none, none, none⟩ = Except.ok r :=
  ⟨(c1_cloud_auth_fatal _).1 (by decide) (by decide),
   (c1_cloud_auth_fatal _).2 (by decide)⟩

/-- C9: the cloud flag is on exactly when `USE_BROWSERSTACK` is set to a
non-empty string other than the literal `'false'`, and the flag stored in
the config is that very value. -/
theorem c9_cloud_flag_semantics (env : Env) :
    (browserStackEnabled env = true ↔
      ∃ s, env.useBrowserStack = some s ∧ s ≠ [] ∧ s ≠ "false".data)
    ∧ (∀ cfg w, initializeConfig env = Except.ok (cfg, w) →
        cfg.browserStack.enabled = browserStackEnabled env) := by
  constructor
  · unfold browserStackEnabled truthy
    cases h : env.useBrowserStack with
    | none => simp
    | some s => simp [List.isEmpty_iff]
  · intro cfg w hok
    rw [initializeConfig] at hok
    split_ifs at hok
    simp only [Except.ok.injEq, Prod.mk.injEq] at hok
    rw [← hok.1]

theorem c9_cloud_flag_semantics_witness :
    (⟨"http://x".data, ⟨true, "u".data, some "k".data, false⟩⟩
        : Config).browserStack.enabled
      = browserStackEnabled ⟨some "http://x".data, some "False".data,
          some "u:k".data⟩ :=
  (c9_cloud_flag_semantics _).2 _ [] (by rfl)

/-- C10 counterexample: on the trimmed auth string `"user:"` (which does
contain a colon) the split does not yield user `"user"` with key `""` as the
claim states; the regex `/:(.+)/` fails to match, the user is the whole
string `"user:"` and the key is `undefined`. -/
theorem c10_counterexample :
    splitAuthColon (trimL "user:".data) = ("user:".data, none)
    ∧ ("user:".data, (none : Option (List Char))) ≠ ("user".data, some "".data) := by
  constructor
  · decide
  · decide

/-- C10 (amended): the split happens at the first colon only when at least
one character (matched by the regex `.`) follows it — then the user is the
text before that colon and the key the entire remainder, embedded colons
preserved; with no colon at all, or with the colon as the last character,
the user is the whole string and the key is `undefined`. -/
theorem c10_amended_auth_split (u k s : List Char) :
    (':' ∉ u → k ≠ [] → (∀ c ∈ k, jsDot c = true) →
      splitAuthColon (u ++ ':' :: k) = (u, some k))
    ∧ (':' ∉ s → splitAuthColon s = (s, none))
    ∧ (':' ∉ u → splitAuthColon (u ++ [':']) = (u ++ [':'], none)) :=
  ⟨fun h1 h2 h3 => splitAuthColon_split h1 h2 h3,
   fun h => splitAuthColon_no_colon h,
   fun h => splitAuthColon_trailing_colon h⟩

theorem c10_amended_auth_split_witness :
    splitAuthColon ("user".data ++ ':' :: "se:cret".data)
      = ("user".data, some "se:cret".data)
    ∧ splitAuthColon "nocolon".data = ("nocolon".data, none)
    ∧ splitAuthColon ("user".data ++ [':']) = ("user".data ++ [':'], none) :=
  ⟨(c10_amended_auth_split "user".data "se:cret".data "nocolon".data).1
      (by decide) (by decide) (by decide),
   (c10_amended_auth_split "user".data "se:cret".data "nocolon".data).2.1
      (by decide),
   (c10_amended_auth_split "user".data "se:cret".data "nocolon".data).2.2
      (by decide)⟩

/-- C4 counterexample: `BROWSERSTACK_AUTH="abc"` passes the startup check
(it is a non-empty string) and cloud mode stays enabled, yet the key
credential ends up `undefined`, not a non-empty string. -/
theorem c4_counterexample :
    initializeConfig ⟨some "http://example.com".data, some "true".data,
        some "abc".data⟩
      = Except.ok (⟨"http://example.com".data,
          ⟨true, "abc".data, none, false⟩⟩, []) := by rfl

/-- C4 (amended): after a successful initialization with cloud mode enabled,
the auth variable is a non-empty string and user/key are exactly the two
pieces of the `/:(.+)/` split of its trimmed value; the key, when defined,
is non-empty, but the startup check alone does not guarantee that both
credentials are present. -/
theorem c4_amended_credentials (env : Env) (cfg : Config) (w : List Warn)
    (hok : initializeConfig env = Except.ok (cfg, w))
    (hen : cfg.browserStack.enabled = true) :
    ∃ a, env.browserStackAuth = some a ∧ a ≠ [] ∧
      cfg.browserStack.user = (splitAuthColon (trimL a)).1 ∧
      cfg.browserStack.key = (splitAuthColon (trimL a)).2 ∧
      ∀ k, cfg.browserStack.key = some k → k ≠ [] := by
  rw [initializeConfig] at hok
  split_ifs at hok with hcond
  simp only [Except.ok.injEq, Prod.mk.injEq] at hok
  obtain ⟨hcfg, -⟩ := hok
  have henv : browserStackEnabled env = true := by
    rw [← hcfg] at hen
    exact hen
  have hauth : truthy env.browserStackAuth = true := by
    by_contra hf
    exact hcond (by rw [henv, Bool.eq_false_iff.mpr hf]; rfl)
  cases ha : env.browserStackAuth with
  | none => rw [ha] at hauth; simp [truthy] at hauth
  | some a =>
    rw [ha] at hauth
    have hane : a ≠ [] := by
      simpa [truthy, List.isEmpty_iff] using hauth
    refine ⟨a, rfl, hane, ?_, ?_, ?_⟩
    · rw [← hcfg]
      show (credentials env).1 = _
      rw [credentials, if_pos henv, ha]
      rfl
    · rw [← hcfg]
      show (credentials env).2 = _
      rw [credentials, if_pos henv, ha]
      rfl
    · intro k hk
      rw [← hcfg] at hk
      have : (credentials env).2 = some k := hk
      rw [credentials, if_pos henv, ha] at this
      exact splitAuthColon_key_ne_nil this

theorem c4_amended_credentials_witness :
    ∃ a, (⟨some "http://example.com".data, some "true".data,
            some "u:k".data⟩ : Env).browserStackAuth = some a
      ∧ a ≠ []
      ∧ (⟨"http://example.com".data, ⟨true, "u".data, some "k".data, false⟩⟩
            : Config).browserStack.user = (splitAuthColon (trimL a)).1
      ∧ (⟨"http://example.com".data, ⟨true, "u".data, some "k".data, false⟩⟩
            : Config).browserStack.key = (splitAuthColon (trimL a)).2
      ∧ ∀ k, (⟨"http://example.com".data,
            ⟨true, "u".data, some "k".data, false⟩⟩
            : Config).browserStack.key = some k → k ≠ [] :=
  c4_amended_credentials _ _ [] (by rfl) (by rfl)

/-! ### Claims C2, C5, C6 -/

/-- C2 counterexample: a tunnel-start failure is logged and the root
`before` hook's promise is rejected with that very error — it propagates
instead of being swallowed, so the overall run fails. -/
theorem c2_counterexample :
    (beforeAllHook ⟨[], ⟨true, [], none, true⟩⟩
        (Except.error "boom".data)).1 = Except.error "boom".data := by rfl

/-- C2 (amended): screenshot-capture failures and driver-disposal failures
are caught, logged and swallowed (those hooks always fulfil), while tunnel
start and stop failures are logged and then propagated (the corresponding
root hook's promise rejects with the error). -/
theorem c2_amended_error_policy :
    (∀ tmpdir state has dirEx now rand so,
      (afterEachHook tmpdir state has dirEx now rand so).hookResult
        = Except.ok ())
    ∧ (∀ hasQuit qo, (afterSuiteHook hasQuit qo).1 = Except.ok ())
    ∧ (∀ cfg e, cfg.browserStack.localEnabled = true →
        (beforeAllHook cfg (Except.error e)).1 = Except.error e)
    ∧ (∀ e, (afterAllHook true true (Except.error e)).1 = Except.error e) := by
  refine ⟨?_, ?_, ?_, ?_⟩
  · intro tmpdir state has dirEx now rand so
    rw [afterEachHook]
    split_ifs
    · cases so <;> rfl
    · rfl
  · intro hasQuit qo
    unfold afterSuiteHook
    split_ifs
    · cases qo <;> rfl
    · rfl
  · intro cfg e h
    rw [beforeAllHook, if_pos h]
  · intro e
    rfl

theorem c2_amended_error_policy_witness :
    (afterEachHook "/tmp".data TestState.failed true false 0 []
        (Except.error "x".data)).hookResult = Except.ok ()
    ∧ (afterSuiteHook true (Except.error "x".data)).1 = Except.ok ()
    ∧ (beforeAllHook ⟨[], ⟨true, [], none, true⟩⟩
        (Except.error "x".data)).1 = Except.error "x".data
    ∧ (afterAllHook true true (Except.error "x".data)).1
        = Except.error "x".data :=
  ⟨c2_amended_error_policy.1 _ _ _ _ _ _ _,
   c2_amended_error_policy.2.1 _ _,
   c2_amended_error_policy.2.2.1 _ _ (by rfl),
   c2_amended_error_policy.2.2.2 _⟩

/-- C5: over one whole process run the tunnel event trace is `[]`,
`[start]`, or `[start, stop]` — the daemon is created and started at most
once (exactly when the local-tunnel flag is set, in the root `before`
hook), stopped at most once (in the root `after` hook, hence after all
suites), and stopped only while it is running. -/
theorem c5_tunnel_lifecycle (cfg : Config) (so : Except (List Char) Unit)
    (isr : Bool) (sto : Except (List Char) Unit) :
    (mochaRootTrace cfg so isr sto = []
      ∨ mochaRootTrace cfg so isr sto = [TunnelEvent.start]
      ∨ mochaRootTrace cfg so isr sto = [TunnelEvent.start, TunnelEvent.stop])
    ∧ (TunnelEvent.start ∈ mochaRootTrace cfg so isr sto ↔
        cfg.browserStack.localEnabled = true)
    ∧ (TunnelEvent.stop ∈ mochaRootTrace cfg so isr sto →
        cfg.browserStack.localEnabled = true ∧ isr = true) := by
  by_cases hl : cfg.browserStack.localEnabled = true <;>
    cases so <;> cases isr <;> cases sto <;>
      simp [mochaRootTrace, beforeAllHook, afterAllHook, hl]

theorem c5_tunnel_lifecycle_witness :
    (⟨[], ⟨false, [], none, true⟩⟩ : Config).browserStack.localEnabled = true
      ∧ true = true :=
  (c5_tunnel_lifecycle ⟨[], ⟨false, [], none, true⟩⟩ (Except.ok ()) true
      (Except.ok ())).2.2 (by decide)

theorem getRandomString_length (n entropy : Nat) :
    (getRandomString n entropy).length = n := by
  simp [getRandomString]

theorem jsInt32_ofNat {n : Nat} (h : n < 2 ^ 31) : jsInt32 n = Int.ofNat n := by
  simp only [jsInt32]
  rw [Nat.mod_eq_of_lt (lt_of_lt_of_le h (by norm_num))]
  rw [if_pos h]
  rfl

theorem int_repr_ofNat (n : Nat) : (Int.ofNat n).repr = Nat.repr n := rfl

/-- C6: on a test that ended in the failed state with a screenshot-capable
driver, the `afterEach` hook saves
`screenshot-<unix seconds>-<6-char random>.png` inside the
`selenium-errors` subdirectory of the OS temp directory, creating that
directory when absent; a test that did not fail saves nothing. -/
theorem c6_failure_screenshot (tmpdir : List Char) (state : TestState)
    (has dirEx : Bool) (now entropy : Nat)
    (hnow : now / 1000 < 2 ^ 31) :
    (state = TestState.failed → has = true →
      (afterEachHook tmpdir state has dirEx now
          (getRandomString 6 entropy) (Except.ok ())).savedScreenshot
        = some (tmpdir ++ '/' :: "selenium-errors".data ++ '/' ::
            ("screenshot-".data ++ (Nat.repr (now / 1000)).data
              ++ '-' :: getRandomString 6 entropy ++ ".png".data))
      ∧ (afterEachHook tmpdir state has dirEx now
          (getRandomString 6 entropy) (Except.ok ())).errDirExistsAfter = true
      ∧ (afterEachHook tmpdir state has dirEx now
          (getRandomString 6 entropy) (Except.ok ())).mkdirCalled = !dirEx
      ∧ (getRandomString 6 entropy).length = 6)
    ∧ (state ≠ TestState.failed →
      (afterEachHook tmpdir state has dirEx now
          (getRandomString 6 entropy) (Except.ok ())).savedScreenshot = none) := by
  constructor
  · intro hs hh
    rw [afterEachHook, if_pos ⟨hs, by rw [hh]⟩]
    refine ⟨?_, rfl, rfl, getRandomString_length 6 entropy⟩
    show some _ = some _
    congr 1
    rw [screenshotName, jsInt32_ofNat hnow, int_repr_ofNat, seleniumErrorsDir]
  · intro hs
    rw [afterEachHook, if_neg (fun hc => hs hc.1)]

theorem c6_failure_screenshot_witness :
    ((TestState.failed = TestState.failed → true = true →
      (afterEachHook "/tmp".data TestState.failed true false 1700000123456
          (getRandomString 6 0) (Except.ok ())).savedScreenshot
        = some ("/tmp".data ++ '/' :: "selenium-errors".data ++ '/' ::
            ("screenshot-".data ++ (Nat.repr (1700000123456 / 1000)).data
              ++ '-' :: getRandomString 6 0 ++ ".png".data))
      ∧ (afterEachHook "/tmp".data TestState.failed true false 1700000123456
          (getRandomString 6 0) (Except.ok ())).errDirExistsAfter = true
      ∧ (afterEachHook "/tmp".data TestState.failed true false 1700000123456
          (getRandomString 6 0) (Except.ok ())).mkdirCalled = !false
      ∧ (getRandomString 6 0).length = 6)
    ∧ (TestState.failed ≠ TestState.failed →
      (afterEachHook "/tmp".data TestState.failed true false 1700000123456
          (getRandomString 6 0) (Except.ok ())).savedScreenshot = none)) :=
  c6_failure_screenshot "/tmp".data TestState.failed true false
    1700000123456 0 (by decide)

/-! ### Claims C7 and C8 -/

/-- C7: `createTestSuites` enumerates the BrowserStack environments exactly
when the cloud flag is set and the local-system browsers otherwise, and for
each enumerated environment registers exactly one suite whose title is
`` `${title} [${description}]` ``, which carries that environment's driver
factory and invokes the caller's `defineTests` once with that environment's
test inputs. -/
theorem c7_suite_registration {α : Type} (cfg : Config) (caps : List CapSeed)
    (platform title : List Char) (f : TestInputs → α) :
    (∀ s ∈ createTestSuites cfg caps platform title f,
      s.title = title ++ ' ' :: '[' :: s.testInputs.envDesc ++ [']']
        ∧ s.testInputs.browserHostUrl = cfg.browserHostUrl
        ∧ s.definedTests = f s.testInputs)
    ∧ ((createTestSuites cfg caps platform title f).map
          (fun s => s.testInputs.envDesc)
        = (if cfg.browserStack.enabled then
            getBrowserstackEnvironments caps cfg.browserStack.user
              cfg.browserStack.key cfg.browserStack.localEnabled
          else getLocalSystemBrowserEnvironments platform).map
            TestEnvironment.description)
    ∧ ((createTestSuites cfg caps platform title f).map
          (fun s => s.driverSpec)
        = (if cfg.browserStack.enabled then
            getBrowserstackEnvironments caps cfg.browserStack.user
              cfg.browserStack.key cfg.browserStack.localEnabled
          else getLocalSystemBrowserEnvironments platform).map
            TestEnvironment.driverSpec)
    ∧ (cfg.browserStack.enabled = true →
        ∀ s ∈ createTestSuites cfg caps platform title f,
          s.driverSpec = DriverSpec.browserStackHub BROWSERSTACK_HUB_URL
            ⟨s.testInputs.envDesc, cfg.browserStack.user,
              cfg.browserStack.key, cfg.browserStack.localEnabled⟩)
    ∧ (cfg.browserStack.enabled = false →
        ∀ s ∈ createTestSuites cfg caps platform title f,
          ∃ b, s.driverSpec = DriverSpec.localBrowser b) := by
  refine ⟨?_, ?_, ?_, ?_, ?_⟩
  · intro s hs
    rw [createTestSuites] at hs
    simp only [List.mem_map] at hs
    obtain ⟨te, -, rfl⟩ := hs
    exact ⟨rfl, rfl, rfl⟩
  · rw [createTestSuites, List.map_map]
    rfl
  · rw [createTestSuites, List.map_map]
    rfl
  · intro hen s hs
    rw [createTestSuites] at hs
    simp only [hen, if_true, getBrowserstackEnvironments, List.map_map,
      List.mem_map] at hs
    obtain ⟨c, -, rfl⟩ := hs
    rfl
  · intro hen s hs
    rw [createTestSuites] at hs
    simp only [hen, Bool.false_eq_true, if_false,
      getLocalSystemBrowserEnvironments, List.map_map, List.mem_map] at hs
    obtain ⟨b, -, rfl⟩ := hs
    exact ⟨b, rfl⟩

theorem c7_suite_registration_witness :
    ((⟨"t ".data ++ '[' :: "Win Chrome".data ++ [']'],
        ⟨"Win Chrome".data, "h".data⟩,
        DriverSpec.browserStackHub BROWSERSTACK_HUB_URL
          ⟨"Win Chrome".data, "u".data, some "k".data, false⟩,
        "Win Chrome".data⟩ : SuiteSpec (List Char)).driverSpec
      = DriverSpec.browserStackHub BROWSERSTACK_HUB_URL
          ⟨(⟨"t ".data ++ '[' :: "Win Chrome".data ++ [']'],
              ⟨"Win Chrome".data, "h".data⟩,
              DriverSpec.browserStackHub BROWSERSTACK_HUB_URL
                ⟨"Win Chrome".data, "u".data, some "k".data, false⟩,
              "Win Chrome".data⟩ : SuiteSpec (List Char)).testInputs.envDesc,
            (⟨"h".data, ⟨true, "u".data, some "k".data, false⟩⟩
              : Config).browserStack.user,
            (⟨"h".data, ⟨true, "u".data, some "k".data, false⟩⟩
              : Config).browserStack.key,
            (⟨"h".data, ⟨true, "u".data, some "k".data, false⟩⟩
              : Config).browserStack.localEnabled⟩)
    ∧ (∃ b, (⟨"t ".data ++ '[' :: "linux firefox".data ++ [']'],
        ⟨"linux firefox".data, "h".data⟩,
        DriverSpec.localBrowser "firefox".data,
        "linux firefox".data⟩ : SuiteSpec (List Char)).driverSpec
      = DriverSpec.localBrowser b) :=
  ⟨(c7_suite_registration (⟨"h".data, ⟨true, "u".data, some "k".data, false⟩⟩
        : Config) [⟨"Win Chrome".data⟩] "linux".data "t".data
        (fun ti => ti.envDesc)).2.2.2.1 rfl _ (List.mem_cons_self _ _),
   (c7_suite_registration (⟨"h".data, ⟨false, "u".data, some "k".data, false⟩⟩
        : Config) [⟨"Win Chrome".data⟩] "linux".data "t".data
        (fun ti => ti.envDesc)).2.2.2.2 rfl _ (List.mem_cons_self _ _)⟩

theorem mem_initWarnings_port (env : Env) (p : Option (List Char)) :
    Warn.nonStandardLocalPort p ∈ initWarnings env ↔
      (localTunnelEnabled env = true
        ∧ (urlParse (resolvedBrowserHost env)).port ≠ some expectedPort
        ∧ p = (urlParse (resolvedBrowserHost env)).port) := by
  unfold initWarnings
  split_ifs with h1 h2 h2 <;>
    simp_all [Bool.and_eq_true, Bool.not_eq_true', beq_eq_false_iff_ne]

/-- C8: a non-standard-port warning is emitted during initialization if and
only if the local-tunnel flag is set and the parsed port of the resolved
host URL differs from `'5757'` (a localhost URL with no explicit port has no
parsed port, hence warns), the warned port being the parsed one; the
configuration value produced is unaffected. -/
theorem c8_port_warning (env : Env) (cfg : Config) (w : List Warn)
    (hok : initializeConfig env = Except.ok (cfg, w)) :
    ((∃ p, Warn.nonStandardLocalPort p ∈ w) ↔
      cfg.browserStack.localEnabled = true
        ∧ (urlParse (resolvedBrowserHost env)).port ≠ some expectedPort)
    ∧ ∀ p, Warn.nonStandardLocalPort p ∈ w →
        p = (urlParse (resolvedBrowserHost env)).port := by
  rw [initializeConfig] at hok
  split_ifs at hok
  simp only [Except.ok.injEq, Prod.mk.injEq] at hok
  obtain ⟨hcfg, hw⟩ := hok
  have hloc : cfg.browserStack.localEnabled = localTunnelEnabled env := by
    rw [← hcfg]
  subst hw
  rw [hloc]
  refine ⟨⟨?_, ?_⟩, ?_⟩
  · rintro ⟨p, hp⟩
    have h := (mem_initWarnings_port env p).mp hp
    exact ⟨h.1, h.2.1⟩
  · rintro ⟨h1, h2⟩
    exact ⟨_, (mem_initWarnings_port env _).mpr ⟨h1, h2, rfl⟩⟩
  · intro p hp
    exact ((mem_initWarnings_port env p).mp hp).2.2

theorem c8_port_warning_witness :
    ((∃ p, Warn.nonStandardLocalPort p
          ∈ [Warn.nonStandardLocalPort (none : Option (List Char))]) ↔
      (⟨"http://bs-local.com/app".data,
          ⟨true, "u".data, some "k".data, true⟩⟩
        : Config).browserStack.localEnabled = true
        ∧ (urlParse (resolvedBrowserHost ⟨some "http://localhost/app".data,
            some "true".data, some "u:k".data⟩)).port ≠ some expectedPort)
    ∧ ∀ p, Warn.nonStandardLocalPort p
          ∈ [Warn.nonStandardLocalPort (none : Option (List Char))] →
        p = (urlParse (resolvedBrowserHost ⟨some "http://localhost/app".data,
            some "true".data, some "u:k".data⟩)).port :=
  c8_port_warning ⟨some "http://localhost/app".data, some "true".data,
    some "u:k".data⟩ _ _ (by rfl)

/-! ### Lemmas about `splitScheme` (for claim C3) -/

theorem take_two_cons_cons (a b : Char) (l : List Char) :
    (a :: b :: l).take 2 = [a, b] := rfl

theorem take_two_singleton (a : Char) : ([a] : List Char).take 2 = [a] := rfl

theorem drop_two_cons_cons (a b : Char) (l : List Char) :
    (a :: b :: l).drop 2 = l := rfl

theorem splitScheme_decomp :
    ∀ {s p r : List Char}, splitScheme s = some (p, r) →
      s = p ++ ':' :: '/' :: '/' :: r := by
  intro s
  induction s with
  | nil => intro p r h; simp [splitScheme] at h
  | cons c rest ih =>
    intro p r h
    rw [splitScheme] at h
    split_ifs at h with hc
    · obtain ⟨hc1, hc2⟩ := hc
      simp only [Option.some.injEq, Prod.mk.injEq] at h
      obtain ⟨hp, hr⟩ := h
      subst hp
      subst hr
      subst hc1
      simp only [List.nil_append, List.cons.injEq, true_and]
      conv_lhs => rw [← List.take_append_drop 2 rest]
      rw [hc2]
      rfl
    · cases hsp : splitScheme rest with
      | none => rw [hsp] at h; simp at h
      | some pr =>
        rw [hsp] at h
        simp only [Option.map_some', Option.some.injEq, Prod.mk.injEq] at h
        obtain ⟨hp, hr⟩ := h
        subst hp
        subst hr
        rw [List.cons_append, ← ih hsp]

theorem splitScheme_prefix_none :
    ∀ {s p r : List Char}, splitScheme s = some (p, r) →
      splitScheme p = none := by
  intro s
  induction s with
  | nil => intro p r h; simp [splitScheme] at h
  | cons c rest ih =>
    intro p r h
    rw [splitScheme] at h
    split_ifs at h with hc
    · simp only [Option.some.injEq, Prod.mk.injEq] at h
      obtain ⟨hp, -⟩ := h
      subst hp
      rfl
    · cases hsp : splitScheme rest with
      | none => rw [hsp] at h; simp at h
      | some pr =>
        rw [hsp] at h
        simp only [Option.map_some', Option.some.injEq, Prod.mk.injEq] at h
        obtain ⟨hp, -⟩ := h
        subst hp
        have hnone : splitScheme pr.1 = none := ih hsp
        have hdecomp : rest = pr.1 ++ ':' :: '/' :: '/' :: pr.2 :=
          splitScheme_decomp hsp
        have hcond : ¬(c = ':' ∧ pr.1.take 2 = ['/', '/']) := by
          rintro ⟨rfl, htake⟩
          apply hc
          refine ⟨rfl, ?_⟩
          cases hp1 : pr.1 with
          | nil => rw [hp1] at htake; simp at htake
          | cons a t1 =>
            cases t1 with
            | nil =>
              rw [hp1, take_two_singleton] at htake
              simp at htake
            | cons b t2 =>
              rw [hp1, take_two_cons_cons] at htake
              simp only [List.cons.injEq, and_true] at htake
              rw [hdecomp, hp1, List.cons_append, List.cons_append,
                take_two_cons_cons, htake.1, htake.2]
        rw [splitScheme, if_neg hcond, hnone]
        rfl

theorem splitScheme_append :
    ∀ {p : List Char}, splitScheme p = none → ∀ (x : List Char),
      splitScheme (p ++ ':' :: '/' :: '/' :: x) = some (p, x) := by
  intro p
  induction p with
  | nil =>
    intro _ x
    rw [List.nil_append, splitScheme, if_pos ⟨rfl, rfl⟩]
    rfl
  | cons c p' ih =>
    intro hp x
    rw [splitScheme] at hp
    split_ifs at hp with hc
    have hp' : splitScheme p' = none := by
      cases hsp : splitScheme p' with
      | none => rfl
      | some pr => rw [hsp] at hp; simp at hp
    have hcond :
        ¬(c = ':' ∧ (p' ++ ':' :: '/' :: '/' :: x).take 2 = ['/', '/']) := by
      rintro ⟨rfl, htake⟩
      cases hp1 : p' with
      | nil =>
        rw [hp1, List.nil_append, take_two_cons_cons] at htake
        simp at htake
      | cons a t1 =>
        cases t1 with
        | nil =>
          rw [hp1, List.cons_append, List.nil_append,
            take_two_cons_cons] at htake
          simp at htake
        | cons b t2 =>
          rw [hp1, List.cons_append, List.cons_append,
            take_two_cons_cons] at htake
          simp only [List.cons.injEq, and_true] at htake
          exact hc ⟨rfl, by
            rw [hp1, take_two_cons_cons, htake.1, htake.2]⟩
    rw [List.cons_append, splitScheme, if_neg hcond, ih hp' x]
    rfl

/-! ### Lemmas about `splitHostPort` and the rewrite roundtrip (claim C3) -/

theorem splitHostPort_bsLocal : splitHostPort bsLocalHost
    = (some bsLocalHost, none) := by decide

theorem splitHostPort_append (hn p : List Char)
    (hp : ∀ c ∈ p, (!(c == ':')) = true) :
    splitHostPort (hn ++ ':' :: p) = (some hn, some p) := by
  have hrev : (hn ++ ':' :: p).reverse = p.reverse ++ ':' :: hn.reverse := by
    simp
  have hall : ∀ c ∈ p.reverse, (fun c => !(c == ':')) c = true := by
    intro c hc
    exact hp c (List.mem_reverse.mp hc)
  have hcolon : (fun c => !(c == ':')) ':' = false := by decide
  obtain ⟨ht, hd⟩ := takeWhile_append_cons ':' hn.reverse hcolon p.reverse hall
  simp only [splitHostPort, hrev, ht, hd, List.reverse_reverse]

theorem splitHostPort_port_cases (hostpart : List Char) :
    (splitHostPort hostpart).2 = none ∨
    ∃ p, (splitHostPort hostpart).2 = some p
      ∧ ∀ c ∈ p, (!(c == ':')) = true ∧ c ∈ hostpart := by
  cases hd : hostpart.reverse.dropWhile (fun c => !(c == ':')) with
  | nil =>
    left
    simp only [splitHostPort, hd]
  | cons a t =>
    right
    refine ⟨(hostpart.reverse.takeWhile (fun c => !(c == ':'))).reverse,
      ?_, ?_⟩
    · simp only [splitHostPort, hd]
    · intro c hc
      rw [List.mem_reverse] at hc
      exact ⟨mem_takeWhile_pred hc,
        List.mem_reverse.mp (mem_of_mem_takeWhile hc)⟩

theorem bsLocal_no_delim : ∀ c ∈ bsLocalHost, (!isHostDelim c) = true := by
  decide

/-- Re-parsing the URL rewritten by the `bs-local.com` swap recovers the
original scheme, port and path, with the hostname replaced. -/
theorem urlParse_rewrite {s proto rest : List Char}
    (hs : splitScheme s = some (proto, rest)) :
    (urlParse (urlFormat (rewriteHost (urlParse s)))).protocol = some proto
    ∧ (urlParse (urlFormat (rewriteHost (urlParse s)))).hostname
        = some bsLocalHost
    ∧ (urlParse (urlFormat (rewriteHost (urlParse s)))).port
        = (urlParse s).port
    ∧ (urlParse (urlFormat (rewriteHost (urlParse s)))).path
        = (urlParse s).path := by
  have hparse : urlParse s =
      { protocol := some proto,
        hostname :=
          (splitHostPort (rest.takeWhile (fun c => !isHostDelim c))).1,
        port := (splitHostPort (rest.takeWhile (fun c => !isHostDelim c))).2,
        host := some (rest.takeWhile (fun c => !isHostDelim c)),
        path := rest.dropWhile (fun c => !isHostDelim c) } := by
    simp only [urlParse, hs]
  have hpnone : splitScheme proto = none := splitScheme_prefix_none hs
  rw [hparse]
  simp only [rewriteHost]
  rcases splitHostPort_port_cases (rest.takeWhile (fun c => !isHostDelim c))
    with hport | ⟨p, hport, hpmem⟩ <;> rw [hport]
  · -- no port: the rebuilt host section is just `bs-local.com`
    simp only [urlFormat, List.append_nil]
    have hall : ∀ c ∈ bsLocalHost, (fun c => !isHostDelim c) c = true :=
      bsLocal_no_delim
    cases hpath : rest.dropWhile (fun c => !isHostDelim c) with
    | nil =>
      obtain ⟨ht, hd⟩ := takeWhile_append_nil bsLocalHost hall
      simp only [urlParse, splitScheme_append hpnone, ht, hd,
        splitHostPort_bsLocal]
      exact ⟨trivial, trivial, trivial, trivial⟩
    | cons a t =>
      have ha : (fun c => !isHostDelim c) a = false :=
        dropWhile_head_false hpath
      obtain ⟨ht, hd⟩ := takeWhile_append_cons a t ha bsLocalHost hall
      simp only [urlParse, splitScheme_append hpnone, ht, hd,
        splitHostPort_bsLocal]
      exact ⟨trivial, trivial, trivial, trivial⟩
  · -- a port is present: the rebuilt host section is `bs-local.com:<port>`
    simp only [urlFormat]
    have hall : ∀ c ∈ bsLocalHost ++ ':' :: p,
        (fun c => !isHostDelim c) c = true := by
      intro c hc
      rcases List.mem_append.mp hc with h | h
      · exact bsLocal_no_delim c h
      · rcases List.mem_cons.mp h with h | h
        · rw [h]; decide
        · exact mem_takeWhile_pred (hpmem c h).2
    have hsp : splitHostPort (bsLocalHost ++ ':' :: p)
        = (some bsLocalHost, some p) :=
      splitHostPort_append bsLocalHost p (fun c hc => (hpmem c hc).1)
    cases hpath : rest.dropWhile (fun c => !isHostDelim c) with
    | nil =>
      obtain ⟨ht, hd⟩ := takeWhile_append_nil (bsLocalHost ++ ':' :: p) hall
      simp only [urlParse, splitScheme_append hpnone, ht, hd, hsp]
      exact ⟨trivial, trivial, trivial, trivial⟩
    | cons a t =>
      have ha : (fun c => !isHostDelim c) a = false :=
        dropWhile_head_false hpath
      obtain ⟨ht, hd⟩ :=
        takeWhile_append_cons a t ha (bsLocalHost ++ ':' :: p) hall
      simp only [urlParse, splitScheme_append hpnone, ht, hd, hsp]
      exact ⟨trivial, trivial, trivial, trivial⟩

theorem localTunnelEnabled_iff (env : Env) :
    localTunnelEnabled env = true ↔
      (browserStackEnabled env = true
        ∧ ((urlParse (resolvedBrowserHost env)).hostname = some "localhost".data
          ∨ (urlParse (resolvedBrowserHost env)).hostname
              = some "127.0.0.1".data)) := by
  unfold localTunnelEnabled localHostnames
  simp only [Bool.and_eq_true, List.contains, List.elem, and_congr_right_iff]
  intro _
  cases hb1 : (urlParse (resolvedBrowserHost env)).hostname
      == some "localhost".data with
  | false =>
    cases hb2 : (urlParse (resolvedBrowserHost env)).hostname
        == some "127.0.0.1".data with
    | false =>
      rw [beq_eq_false_iff_ne] at hb1 hb2
      simp [hb1, hb2]
    | true =>
      rw [beq_iff_eq] at hb2
      simp [hb2]
  | true =>
    rw [beq_iff_eq] at hb1
    simp [hb1]

/-- C3: when cloud mode is enabled and the resolved host URL's hostname is
exactly `localhost` or `127.0.0.1`, the local-tunnel flag is set and the
host URL is rewritten so its hostname becomes `bs-local.com` with scheme,
port and path preserved; otherwise the URL is unchanged and the flag stays
false. -/
theorem c3_localhost_rewrite (env : Env) (cfg : Config) (w : List Warn)
    (hok : initializeConfig env = Except.ok (cfg, w)) :
    ((browserStackEnabled env = true
        ∧ ((urlParse (resolvedBrowserHost env)).hostname = some "localhost".data
          ∨ (urlParse (resolvedBrowserHost env)).hostname
              = some "127.0.0.1".data)) →
      cfg.browserStack.localEnabled = true
        ∧ (urlParse cfg.browserHostUrl).hostname = some bsLocalHost
        ∧ (urlParse cfg.browserHostUrl).protocol
            = (urlParse (resolvedBrowserHost env)).protocol
        ∧ (urlParse cfg.browserHostUrl).port
            = (urlParse (resolvedBrowserHost env)).port
        ∧ (urlParse cfg.browserHostUrl).path
            = (urlParse (resolvedBrowserHost env)).path)
    ∧ (¬(browserStackEnabled env = true
        ∧ ((urlParse (resolvedBrowserHost env)).hostname = some "localhost".data
          ∨ (urlParse (resolvedBrowserHost env)).hostname
              = some "127.0.0.1".data)) →
      cfg.browserStack.localEnabled = false
        ∧ cfg.browserHostUrl = resolvedBrowserHost env) := by
  rw [initializeConfig] at hok
  split_ifs at hok
  simp only [Except.ok.injEq, Prod.mk.injEq] at hok
  obtain ⟨hcfg, -⟩ := hok
  have hurl : cfg.browserHostUrl = finalBrowserHostUrl env := by rw [← hcfg]
  have hle : cfg.browserStack.localEnabled = localTunnelEnabled env := by
    rw [← hcfg]
  constructor
  · intro hcond
    have hlt : localTunnelEnabled env = true :=
      (localTunnelEnabled_iff env).mpr hcond
    have hsome : ∃ pr, splitScheme (resolvedBrowserHost env) = some pr := by
      cases hsp : splitScheme (resolvedBrowserHost env) with
      | none =>
        have hn : (urlParse (resolvedBrowserHost env)).hostname = none := by
          simp only [urlParse, hsp]
        rcases hcond.2 with h | h <;> rw [hn] at h <;> exact absurd h (by simp)
      | some pr => exact ⟨pr, rfl⟩
    obtain ⟨⟨proto, rest⟩, hsp⟩ := hsome
    have hproto : (urlParse (resolvedBrowserHost env)).protocol = some proto := by
      simp only [urlParse, hsp]
    have hfin : cfg.browserHostUrl
        = urlFormat (rewriteHost (urlParse (resolvedBrowserHost env))) := by
      rw [hurl, finalBrowserHostUrl, if_pos hlt]
    have hr := urlParse_rewrite hsp
    refine ⟨by rw [hle, hlt], ?_, ?_, ?_, ?_⟩
    · rw [hfin]
      exact hr.2.1
    · rw [hfin, hr.1]
      exact hproto.symm
    · rw [hfin]
      exact hr.2.2.1
    · rw [hfin]
      exact hr.2.2.2
  · intro hcond
    have hlf : localTunnelEnabled env = false := by
      cases h : localTunnelEnabled env with
      | false => rfl
      | true => exact absurd ((localTunnelEnabled_iff env).mp h) hcond
    refine ⟨by rw [hle, hlf], ?_⟩
    rw [hurl, finalBrowserHostUrl, if_neg (by rw [hlf]; simp)]

theorem c3_localhost_rewrite_witness :
    (⟨"http://bs-local.com:3000/app".data,
        ⟨true, "u".data, some "k".data, true⟩⟩ : Config).browserStack.localEnabled
        = true
    ∧ (urlParse (⟨"http://bs-local.com:3000/app".data,
        ⟨true, "u".data, some "k".data, true⟩⟩ : Config).browserHostUrl).hostname
        = some bsLocalHost
    ∧ (urlParse (⟨"http://bs-local.com:3000/app".data,
        ⟨true, "u".data, some "k".data, true⟩⟩ : Config).browserHostUrl).protocol
        = (urlParse (resolvedBrowserHost ⟨some "http://localhost:3000/app".data,
            some "true".data, some "u:k".data⟩)).protocol
    ∧ (urlParse (⟨"http://bs-local.com:3000/app".data,
        ⟨true, "u".data, some "k".data, true⟩⟩ : Config).browserHostUrl).port
        = (urlParse (resolvedBrowserHost ⟨some "http://localhost:3000/app".data,
            some "true".data, some "u:k".data⟩)).port
    ∧ (urlParse (⟨"http://bs-local.com:3000/app".data,
        ⟨true, "u".data, some "k".data, true⟩⟩ : Config).browserHostUrl).path
        = (urlParse (resolvedBrowserHost ⟨some "http://localhost:3000/app".data,
            some "true".data, some "u:k".data⟩)).path :=
  (c3_localhost_rewrite ⟨some "http://localhost:3000/app".data,
      some "true".data, some "u:k".data⟩ _
      [Warn.nonStandardLocalPort (some "3000".data)] (by rfl)).1
    (by exact ⟨by decide, Or.inl (by decide)⟩)

end CreateTestSuites
